import Mathlib

/-!
Verification of the `github-tag-action` orchestration (src/lib.ts, src/core.ts).

The TypeScript `run` procedure is shallowly embedded as a pure function from a
`World` (environment variables, captured stdout of every git command, the
results of the two external collaborators and of the remote tag-object
creation) to a trace of observable events (`Event`): git commands executed,
adapter outputs/failures/log lines, collaborator invocations, and remote API
calls.  JavaScript string operations used by the code (`split`, `replace` with
a string pattern, `trim`, `match` with a regex built from a string, `slice`)
are modelled by executable character-list functions below.  The regex model
covers literal characters, `.` and postfix `*` — the fragment relevant to the
configuration patterns of this action; plain `console.log` lines that merely
print JavaScript objects are not recorded as events.
-/

/-- Boolean prefix test on character lists. -/
def isPref : List Char → List Char → Bool
  | [], _ => true
  | _ :: _, [] => false
  | p :: ps, c :: cs => p == c && isPref ps cs

/-- Auxiliary for `replaceFirst`: remove the first occurrence of the
nonempty pattern `p0 :: ps` from the list. -/
def replFirstAux (p0 : Char) (ps : List Char) : List Char → List Char
  | [] => []
  | c :: rest =>
    if isPref (p0 :: ps) (c :: rest) then rest.drop ps.length
    else c :: replFirstAux p0 ps rest

/-- JavaScript `s.replace(pat, "")` with a string pattern: removes the first
occurrence of `pat` anywhere in `s` (the empty pattern leaves `s` unchanged). -/
def replaceFirst (s pat : String) : String :=
  match pat.toList with
  | [] => s
  | p0 :: ps => (replFirstAux p0 ps s.toList).asString

/-- JavaScript `String.prototype.trim` (modelled with Lean's whitespace set). -/
def jsTrim (s : String) : String :=
  ((s.toList.dropWhile Char.isWhitespace).reverse.dropWhile Char.isWhitespace).reverse.asString

/-- Find the first occurrence of the nonempty separator `s0 :: srest`:
returns the chunk before it and the remainder after it, or `none`. -/
def breakAtSep (s0 : Char) (srest : List Char) : List Char → Option (List Char × List Char)
  | [] => none
  | c :: rest =>
    if isPref (s0 :: srest) (c :: rest) then some ([], rest.drop srest.length)
    else
      match breakAtSep s0 srest rest with
      | none => none
      | some (chunk, rem) => some (c :: chunk, rem)

/-- Fuelled splitting on a nonempty separator; `fuel ≥` input length is
always sufficient (each separator occurrence consumes at least one char). -/
def splitFuel (s0 : Char) (srest : List Char) : Nat → List Char → List (List Char)
  | 0, s => [s]
  | fuel + 1, s =>
    match breakAtSep s0 srest s with
    | none => [s]
    | some (chunk, rem) => chunk :: splitFuel s0 srest fuel rem

/-- JavaScript `s.split(sep)`.  An empty separator splits into single
characters; a nonempty separator splits on non-overlapping occurrences,
left to right (`"".split(sep) = [""]`). -/
def jsSplit (s sep : String) : List String :=
  match sep.toList with
  | [] => s.toList.map fun c => (([c] : List Char)).asString
  | s0 :: srest => (splitFuel s0 srest s.toList.length s.toList).map List.asString

/-- Substring containment test (used to state "message contains ..."). -/
def containsStr (s pat : String) : Bool :=
  match pat.toList with
  | [] => true
  | p0 :: ps => (breakAtSep p0 ps s.toList).isSome

/-- The single-quote character (used by the commit-record cleanup regex). -/
def quoteChar : Char := Char.ofNat 39

/-- JavaScript `x.replace(/(^['\s]+)|(['\s]+$)/g, "")`: strip leading and
trailing runs of single quotes and whitespace. -/
def stripQuoteWs (s : String) : String :=
  ((s.toList.dropWhile (fun c => c == quoteChar || c.isWhitespace)).reverse.dropWhile
      (fun c => c == quoteChar || c.isWhitespace)).reverse.asString

/-- JavaScript `a || b` on strings (empty string is falsy). -/
def jsOr (a b : String) : String := if a == "" then b else a

/-- JavaScript `s.slice(0, 7)`. -/
def firstSeven (s : String) : String := (s.toList.take 7).asString

/-- Fuel bound for the regex matcher: every recursive step shrinks
`pattern length + subject length`. -/
def fuelFor (pat s : List Char) : Nat := 2 * (pat.length + s.length) + 2

/-- Fuelled matcher for the modelled regex fragment (literal characters,
`.`, postfix `*`), anchored at the start of the subject. -/
def matchHereF : Nat → List Char → List Char → Bool
  | 0, _, _ => false
  | _ + 1, [], _ => true
  | f + 1, p :: '*' :: ps, s =>
    matchHereF f ps s ||
      (match s with
       | [] => false
       | c :: rest => (p == '.' || p == c) && matchHereF f (p :: '*' :: ps) rest)
  | f + 1, p :: ps, s =>
    match s with
    | [] => false
    | c :: rest => (p == '.' || p == c) && matchHereF f ps rest

/-- Unanchored search: try the anchored matcher at every start position. -/
def searchFrom (pat : List Char) : List Char → Bool
  | [] => matchHereF (fuelFor pat []) pat []
  | c :: rest => matchHereF (fuelFor pat (c :: rest)) pat (c :: rest) || searchFrom pat rest

/-- JavaScript `!!s.match(pattern)`: unanchored regex search of `pattern`
(as a string) in `s`. -/
def jsMatch (s pat : String) : Bool := searchFrom pat.toList s.toList

example : replaceFirst "abcrefs/heads/d" "refs/heads/" = "abcd" := by decide
example : replaceFirst "refs/heads/main" "refs/heads/" = "main" := by decide
example : jsSplit "a,b" "," = ["a", "b"] := by decide
example : jsSplit "" "," = [""] := by decide
example : jsMatch "feature/x" "release/.*" = false := by decide
example : jsMatch "release/1.2" "release/.*" = true := by decide
example : jsMatch "main" "main" = true := by decide
example : jsMatch "xmainy" "main" = true := by decide
example : stripQuoteWs "  'fix: thing'  " = "fix: thing" := by decide
example : firstSeven "0123456789" = "0123456" := by decide

/-! ## Model of `semver.inc` (the `semver` npm package, as called by lib.ts)

`semver.inc(version, release)` parses `version` (optionally `v`-prefixed
`major.minor.patch` with optional `-prerelease` and `+build` parts, numeric
identifiers without leading zeros) and applies the release-type increment,
returning `null` — modelled as `none` — when the version does not parse or
the release type is unknown.  Numeric range limits of the library are not
modelled (`Nat` is unbounded). -/

/-- Digit run to a number. -/
def digitsToNat (l : List Char) : Nat :=
  l.foldl (fun n c => n * 10 + (c.toNat - 48)) 0

/-- A numeric identifier: nonempty digits, no leading zero (unless "0"). -/
def parseNumericId (l : List Char) : Option Nat :=
  if l.isEmpty then none
  else if l.all Char.isDigit then
    if 1 < l.length && l.head? == some '0' then none else some (digitsToNat l)
  else none

/-- An alphanumeric-or-hyphen identifier character. -/
def isIdChar (c : Char) : Bool := c.isAlphanum || c == '-'

/-- A prerelease identifier: numeric (no leading zeros) or alphanumeric/hyphen. -/
def validPreId (s : String) : Bool :=
  !s.toList.isEmpty &&
    (if s.toList.all Char.isDigit then (parseNumericId s.toList).isSome
     else s.toList.all isIdChar)

/-- A build identifier: nonempty alphanumeric/hyphen. -/
def validBuildId (s : String) : Bool :=
  !s.toList.isEmpty && s.toList.all isIdChar

/-- Parsed semantic version (build metadata is dropped: `inc` discards it). -/
structure SemVerV where
  major : Nat
  minor : Nat
  patch : Nat
  pre : List String
deriving DecidableEq

/-- Parse the `major.minor.patch` core. -/
def parseCore (s : String) : Option (Nat × Nat × Nat) :=
  match jsSplit s "." with
  | [a, b, c] =>
    match parseNumericId a.toList, parseNumericId b.toList, parseNumericId c.toList with
    | some x, some y, some z => some (x, y, z)
    | _, _, _ => none
  | _ => none

/-- Parse a semantic version string (after trimming, with optional `v`). -/
def parseSemVerV (version : String) : Option SemVerV :=
  let t := jsTrim version
  let t := match t.toList with
    | 'v' :: rest => rest.asString
    | _ => t
  match jsSplit t "+" with
  | [mainPre] => parseMainPre mainPre
  | [mainPre, build] =>
    if (jsSplit build ".").all validBuildId then parseMainPre mainPre else none
  | _ => none
where
  /-- Split off the prerelease part at the first `-` and validate both. -/
  parseMainPre (s : String) : Option SemVerV :=
    match breakAtSep '-' [] s.toList with
    | none =>
      match parseCore s with
      | some (x, y, z) => some ⟨x, y, z, []⟩
      | none => none
    | some (core, preChars) =>
      let preIds := jsSplit preChars.asString "."
      if preIds.all validPreId then
        match parseCore core.asString with
        | some (x, y, z) => some ⟨x, y, z, preIds⟩
        | none => none
      else none

/-- `inc('pre')` with no identifier: bump the last numeric prerelease
identifier, or push `0`. -/
def incPre (v : SemVerV) : SemVerV :=
  if v.pre.isEmpty then { v with pre := ["0"] }
  else
    match bumpLastNumeric v.pre.reverse with
    | some r => { v with pre := r.reverse }
    | none => { v with pre := v.pre ++ ["0"] }
where
  /-- Bump the first numeric identifier of the reversed list, if any. -/
  bumpLastNumeric : List String → Option (List String)
    | [] => none
    | x :: xs =>
      if x.toList.all Char.isDigit && !x.toList.isEmpty then
        some (toString (digitsToNat x.toList + 1) :: xs)
      else
        match bumpLastNumeric xs with
        | none => none
        | some r => some (x :: r)

/-- The `inc` switch of the semver package (identifier argument absent). -/
def incSemVer (v : SemVerV) (release : String) : Option SemVerV :=
  if release == "major" then
    some ⟨if v.minor ≠ 0 || v.patch ≠ 0 || v.pre.isEmpty then v.major + 1 else v.major, 0, 0, []⟩
  else if release == "minor" then
    some ⟨v.major, if v.patch ≠ 0 || v.pre.isEmpty then v.minor + 1 else v.minor, 0, []⟩
  else if release == "patch" then
    some ⟨v.major, v.minor, if v.pre.isEmpty then v.patch + 1 else v.patch, []⟩
  else if release == "premajor" then
    some (incPre ⟨v.major + 1, 0, 0, []⟩)
  else if release == "preminor" then
    some (incPre ⟨v.major, v.minor + 1, 0, []⟩)
  else if release == "prepatch" then
    some (incPre ⟨v.major, v.minor, v.patch + 1, []⟩)
  else if release == "prerelease" then
    if v.pre.isEmpty then some (incPre ⟨v.major, v.minor, v.patch + 1, []⟩)
    else some (incPre v)
  else if release == "pre" then
    some (incPre v)
  else none

/-- Render a parsed version back to its string form. -/
def renderSemVer (v : SemVerV) : String :=
  toString v.major ++ "." ++ toString v.minor ++ "." ++ toString v.patch ++
    (if v.pre.isEmpty then "" else "-" ++ String.intercalate "." v.pre)

/-- `semver.inc(version, release)`: `none` models the `null` result. -/
def semverInc (version release : String) : Option String :=
  match parseSemVerV version with
  | none => none
  | some v =>
    match incSemVer v release with
    | none => none
    | some v2 => some (renderSemVer v2)

example : semverInc "1.2.3" "minor" = some "1.3.0" := by decide
example : semverInc "1.2.3" "major" = some "2.0.0" := by decide
example : semverInc "1.2.3" "patch" = some "1.2.4" := by decide
example : semverInc "v1.0.0" "patch" = some "1.0.1" := by decide
example : semverInc "1.3.0-alpha.1" "prerelease" = some "1.3.0-alpha.2" := by decide
example : semverInc "1.2.3" "banana" = none := by decide
example : semverInc "not-a-version" "minor" = none := by decide
example : semverInc "1.2" "minor" = none := by decide

/-! ## Environment adapter (src/core.ts) and the `run` procedure (src/lib.ts)

`CoreAdapter.getInput` throws when the environment stores the empty string
for the key and returns the stored value (or `""` when unset) otherwise; a
throw is caught by `run`'s top-level handler, which reports the error message
as a failure.  `run` itself is embedded as a function from a `World` — the
environment plus the captured stdout of each git command and the results of
the external collaborators and of the remote tag-object creation — to the
trace of observable events, written stage by stage following the source. -/

/-- `CoreAdapter.getInput`: error iff the environment stores `""` for the key
(the error message is the thrown `Error`'s message). -/
def getInput (env : String → Option String) (key : String) : Except String String :=
  match env key with
  | some v => if v == "" then Except.error ("No " ++ key ++ " in env.") else Except.ok v
  | none => Except.ok ""

/-- The literal separator placed after each commit record in the log format:
a run of 46 `=` characters. -/
def SEPARATOR : String := (List.replicate 46 '=').asString

/-- Observable events of a run: git commands, adapter outputs/failures and
log lines, collaborator invocations, and remote API calls. -/
inductive Event where
  | exec (cmd : String)
  | output (key value : String)
  | failed (msg : String)
  | info (msg : String)
  | debug (msg : String)
  | analyze (preset : String) (commits : List String)
  | notes
  | createTag (tag message object type_ : String)
  | createRef (ref sha : String)
deriving DecidableEq

/-- The six configuration inputs read at the top of `run`. -/
structure Inputs where
  defaultBump : String
  messageParserPreset : String
  tagPrefix : String
  releaseBranches : String
  createAnnotatedTag : String
  dryRun : String
deriving DecidableEq

/-- External state a run interacts with: the process environment and the
results returned by git commands, the commit classifier, the release-notes
generator, and the remote tag-object creation. -/
structure World where
  env : String → Option String
  shallowOut : String
  tagListOut : String
  revListOut : String
  describeOut : String
  logOut : String
  logAllOut : String
  tagExistsOut : String
  classifierResult : Option String
  notesOut : String
  createTagSha : String

/-- Commit-log parsing: split the raw log on the separator, trim each record
and strip quote/whitespace artifacts, and keep the nonempty ones. -/
def parseCommits (logs : String) : List String :=
  ((jsSplit logs SEPARATOR).map fun x => stripQuoteWs (jsTrim x)).filter fun m => !(m == "")

/-- `bump = (await analyzeCommits(...)) || defaultBump`: the classifier's
result when it yields one, otherwise the configured default. -/
def resolvedBump (classifierResult : Option String) (defaultBump : String) : String :=
  jsOr (classifierResult.getD "") defaultBump

/-- Pre-release classification: the branch (ref with the first occurrence of
`refs/heads/` removed) must match none of the comma-separated patterns. -/
def preReleaseOf (releaseBranches ref : String) : Bool :=
  (jsSplit releaseBranches ",").all fun branch =>
    !jsMatch (replaceFirst ref "refs/heads/") branch

/-- Rendering of the classifier's raw result in the debug line
(`null` for an absent result, as JavaScript template literals print it). -/
def renderClassifier (c : Option String) : String := c.getD "null"

/-- Tail of the run from the `git tag -l` idempotence check onward:
dry-run gate, then annotated (two remote calls, early return) or
lightweight (one remote call, then re-fetch) tag creation. -/
def runTagCreate (w : World) (inp : Inputs) (sha newTag : String) : List Event :=
  [Event.exec ("git tag -l \"" ++ newTag ++ "\"")] ++
  if !(jsTrim w.tagExistsOut == "") then
    [Event.debug "This tag already exists. Skipping the tag creation."]
  else
    [Event.info ("dry_run: " ++ inp.dryRun ++ " (string)")] ++
    if inp.dryRun == "true" then
      [Event.output "dry_run" "true", Event.info "Dry run: not performing tag action."]
    else
      match getInput w.env "github_token" with
      | Except.error e => [Event.failed e]
      | Except.ok _t =>
        if inp.createAnnotatedTag == "true" then
          [Event.debug "Creating annotated tag",
           Event.createTag newTag newTag sha "commit",
           Event.debug "Pushing annotated tag to the repo",
           Event.createRef ("refs/tags/" ++ newTag) w.createTagSha]
        else
          [Event.debug "Pushing new tag to the repo",
           Event.createRef ("refs/tags/" ++ newTag) sha,
           Event.info "Fetching generated tag",
           Event.exec "git fetch --tags"]

/-- From commit parsing and classification to version computation, changelog
generation, and the tag-creation tail (skipped on a pre-release branch). -/
def runBumpPhase (w : World) (inp : Inputs) (sha : String) (preRelease : Bool)
    (tag logs : String) : List Event :=
  let commits := parseCommits logs
  let bump := resolvedBump w.classifierResult inp.defaultBump
  [Event.debug ("Commits: " ++ String.intercalate "," (commits.map fun _ => "[object Object]")),
   Event.analyze (jsOr inp.messageParserPreset "conventionalcommits") commits,
   Event.debug ("Bump type from commits: " ++ renderClassifier w.classifierResult),
   Event.info ("Effective bump type: " ++ bump)] ++
  if bump == "" then [Event.failed "Nothing to bump - not building release"]
  else
    let rawVersion := replaceFirst tag inp.tagPrefix
    let incResult := semverInc rawVersion (jsOr bump inp.defaultBump)
    [Event.debug ("SemVer.inc(" ++ rawVersion ++ ", " ++ jsOr bump inp.defaultBump ++ "): "
      ++ (incResult.getD "null"))] ++
    match incResult with
    | none => [Event.failed ("SemVer inc rejected tag " ++ tag)]
    | some incVersion =>
      let newVersion := incVersion ++ (if preRelease then "-" ++ firstSeven sha else "")
      let newTag := inp.tagPrefix ++ newVersion
      [Event.output "new_version" newVersion,
       Event.output "new_tag" newTag,
       Event.debug ("New tag: " ++ newTag),
       Event.notes,
       Event.output "changelog" w.notesOut] ++
      if preRelease then
        [Event.debug "This branch is not a release branch. Skipping the tag creation."]
      else runTagCreate w inp sha newTag

/-- Previous-tag discovery: with existing tags, find the previous tag and the
log since it and short-circuit when its commit is the current head; with no
tags, use the `0.0.0` baseline and the full log. -/
def runTagPhase (w : World) (inp : Inputs) (sha : String) (preRelease : Bool) : List Event :=
  if jsTrim w.tagListOut == "" then
    [Event.exec ("git log --pretty=format:'%s%n%b" ++ SEPARATOR ++ "' --abbrev-commit"),
     Event.output "previous_tag" "0.0.0"] ++
    runBumpPhase w inp sha preRelease "0.0.0" (jsTrim w.logAllOut)
  else
    [Event.exec "pwd",
     Event.exec ("git rev-list --tags=" ++ inp.tagPrefix ++ "* --topo-order --max-count=1"),
     Event.exec ("git describe --tags " ++ jsTrim w.revListOut),
     Event.exec ("git log " ++ jsTrim w.describeOut ++ "..HEAD --pretty=format:'%s%n%b"
       ++ SEPARATOR ++ "' --abbrev-commit")] ++
    if jsTrim w.revListOut == sha then
      [Event.debug "No new commits since previous tag. Skipping...",
       Event.output "previous_tag" (jsTrim w.describeOut)]
    else
      runBumpPhase w inp sha preRelease (jsTrim w.describeOut) (jsTrim w.logOut)

/-- The shallow-repository check, conditional unshallowing, and tag fetch. -/
def gitSetupEvents (w : World) : List Event :=
  [Event.exec "git rev-parse --is-shallow-repository"] ++
  (if jsMatch (jsTrim w.shallowOut) "true" then [Event.exec "git fetch --unshallow"] else []) ++
  [Event.exec "git fetch --tags", Event.exec "git tag"]

/-- Body of `run` after the environment checks. -/
def runMain (w : World) (inp : Inputs) (ref sha : String) : List Event :=
  gitSetupEvents w ++ runTagPhase w inp sha (preReleaseOf inp.releaseBranches ref)

/-- The `GITHUB_REF` / `GITHUB_SHA` presence checks. -/
def runEnvChecks (w : World) (inp : Inputs) : List Event :=
  match w.env "GITHUB_REF" with
  | none => [Event.failed "Missing GITHUB_REF"]
  | some ref =>
    if ref == "" then [Event.failed "Missing GITHUB_REF"]
    else
      match w.env "GITHUB_SHA" with
      | none => [Event.failed "Missing GITHUB_SHA"]
      | some sha =>
        if sha == "" then [Event.failed "Missing GITHUB_SHA"]
        else runMain w inp ref sha

/-- The full `run` procedure: read the six configuration inputs (a thrown
configuration error is reported by the top-level handler), then proceed. -/
def run (w : World) : List Event :=
  match getInput w.env "default_bump" with
  | Except.error e => [Event.failed e]
  | Except.ok defaultBump =>
    match getInput w.env "message_parser_preset" with
    | Except.error e => [Event.failed e]
    | Except.ok messageParserPreset =>
      match getInput w.env "tag_prefix" with
      | Except.error e => [Event.failed e]
      | Except.ok tagPrefix =>
        match getInput w.env "release_branches" with
        | Except.error e => [Event.failed e]
        | Except.ok releaseBranches =>
          match getInput w.env "create_annotated_tag" with
          | Except.error e => [Event.failed e]
          | Except.ok createAnnotatedTag =>
            match getInput w.env "dry_run" with
            | Except.error e => [Event.failed e]
            | Except.ok dryRun =>
              runEnvChecks w
                ⟨defaultBump, messageParserPreset, tagPrefix, releaseBranches,
                 createAnnotatedTag, dryRun⟩

/-- Remote tag-publishing gateway calls. -/
def Event.isRemote : Event → Bool
  | Event.createTag _ _ _ _ => true
  | Event.createRef _ _ => true
  | _ => false

/-- Failure reports. -/
def Event.isFailed : Event → Bool
  | Event.failed _ => true
  | _ => false

/-- Commit-classifier invocations. -/
def Event.isAnalyze : Event → Bool
  | Event.analyze _ _ => true
  | _ => false

/-- Changelog-generator invocations. -/
def Event.isNotes : Event → Bool
  | Event.notes => true
  | _ => false

/-- Git command executions. -/
def Event.isExec : Event → Bool
  | Event.exec _ => true
  | _ => false

/-- Adapter outputs for a given key. -/
def Event.outputKeyIs (k : String) : Event → Bool
  | Event.output k2 _ => k2 == k
  | _ => false

/-- No remote tag-publishing call occurs in the trace. -/
def noRemote (t : List Event) : Bool := t.all fun e => !e.isRemote

/-! ## Helper lemmas -/

/-- The anchored matcher accepts the empty pattern whenever fuel remains. -/
theorem matchHereF_nil_pat (f : Nat) (s : List Char) (hf : f ≠ 0) :
    matchHereF f [] s = true := by
  cases f with
  | zero => exact absurd rfl hf
  | succ f => rfl

/-- Unanchored search with the empty pattern always succeeds. -/
theorem searchFrom_nil_pat (l : List Char) : searchFrom [] l = true := by
  cases l with
  | nil => rfl
  | cons c t =>
    show matchHereF (fuelFor [] (c :: t)) [] (c :: t) || searchFrom [] t = true
    rw [matchHereF_nil_pat _ _ (by simp [fuelFor])]
    simp

/-- JavaScript `s.match("")` is truthy for every subject. -/
theorem jsMatch_empty_pat (s : String) : jsMatch s "" = true := by
  show searchFrom [] s.toList = true
  exact searchFrom_nil_pat s.toList

/-- Splitting the empty string on a comma yields one empty pattern. -/
theorem jsSplit_empty_comma : jsSplit "" "," = [""] := by decide

/-! ## Claims -/

/-- C9: `getInput(key)` fails (with the configuration-error message) if and
only if the environment stores the empty string for the key; an entirely
unset key yields `Except.ok ""`, and any other stored value is returned
unchanged. -/
theorem getInput_blank_iff_error (env : String → Option String) (k : String) :
    ((∃ e, getInput env k = Except.error e) ↔ env k = some "") ∧
    (env k = none → getInput env k = Except.ok "") ∧
    (∀ v, v ≠ "" → env k = some v → getInput env k = Except.ok v) := by
  refine ⟨⟨?_, ?_⟩, ?_, ?_⟩
  · rintro ⟨e, he⟩
    cases h : env k with
    | none => simp [getInput, h] at he
    | some v =>
      by_cases hv : v = ""
      · rw [hv]
      · simp [getInput, h, hv] at he
  · intro h
    exact ⟨"No " ++ k ++ " in env.", by simp [getInput, h]⟩
  · intro h
    simp [getInput, h]
  · intro v hv h
    simp [getInput, h, hv]

/-- Witness for C9 at concrete stores: set-to-blank fails, unset yields `""`,
and a nonempty stored value is returned unchanged. -/
theorem getInput_blank_iff_error_witness :
    (∃ e, getInput (fun k => if k == "tag_prefix" then some "" else none) "tag_prefix"
        = Except.error e) ∧
    getInput (fun _ => none) "dry_run" = Except.ok "" ∧
    getInput (fun k => if k == "dry_run" then some "yes" else none) "dry_run"
        = Except.ok "yes" :=
  ⟨(getInput_blank_iff_error (fun k => if k == "tag_prefix" then some "" else none)
      "tag_prefix").1.2 (by decide),
   (getInput_blank_iff_error (fun _ => none) "dry_run").2.1 rfl,
   (getInput_blank_iff_error (fun k => if k == "dry_run" then some "yes" else none)
      "dry_run").2.2 "yes" (by decide) (by decide)⟩

/-- C10: an unset release-branch list is read back as the empty string;
splitting it on commas yields the single empty pattern, which matches every
branch name, so no branch is ever classified pre-release. -/
theorem empty_release_branches_never_prerelease :
    jsSplit "" "," = [""] ∧
    (∀ s : String, jsMatch s "" = true) ∧
    (∀ ref : String, preReleaseOf "" ref = false) := by
  refine ⟨jsSplit_empty_comma, jsMatch_empty_pat, fun ref => ?_⟩
  simp [preReleaseOf, jsSplit_empty_comma, jsMatch_empty_pat]

/-- C1 (amended): the run classifies as pre-release exactly when the branch —
the ref with the *first occurrence* of `refs/heads/` removed, wherever it
occurs — matches none of the comma-separated patterns, each tested as an
unanchored match. -/
theorem preRelease_iff_matches_none (releaseBranches ref : String) :
    preReleaseOf releaseBranches ref = true ↔
      ∀ pat ∈ jsSplit releaseBranches ",",
        jsMatch (replaceFirst ref "refs/heads/") pat = false := by
  simp [preReleaseOf, List.all_eq_true]

/-- Branch derivation as the claim words it: strip `refs/heads/` only when it
is a leading prefix (stated from the claim, for comparison with the code). -/
def specLeadingStrip (ref : String) : String :=
  if isPref "refs/heads/".toList ref.toList then (ref.toList.drop 11).asString else ref

/-- C1 counterexample: for ref `abcrefs/heads/d` and pattern list `abcd`, the
claim's branch (no leading prefix to strip) matches no pattern, so the claim
predicts pre-release — but the program removes the mid-string occurrence,
obtains branch `abcd`, and classifies the run as a release. -/
theorem preRelease_leading_strip_counterexample :
    ((jsSplit "abcd" ",").all fun pat =>
        !jsMatch (specLeadingStrip "abcrefs/heads/d") pat) = true ∧
    preReleaseOf "abcd" "abcrefs/heads/d" = false := by decide

/-- Stripping the configured prefix `v` from tag `v1.2.3`. -/
theorem replaceFirst_v123 : replaceFirst "v1.2.3" "v" = "1.2.3" := by decide

/-- `semver.inc("1.2.3", "minor") = "1.3.0"`. -/
theorem semverInc_123_minor : semverInc "1.2.3" "minor" = some "1.3.0" := by decide

/-- `firstSeven` really takes exactly 7 characters of a long-enough string. -/
theorem firstSeven_length (s : String) (h : 7 ≤ s.length) :
    (firstSeven s).length = 7 := by
  show (s.toList.take 7).length = 7
  have h2 : s.toList.length = s.length := rfl
  simp only [List.length_take]
  omega

/-- C2: with previous tag `v1.2.3`, tag prefix `v` and resolved bump `minor`,
the computed `new_version` output is `1.3.0`, suffixed on a pre-release
branch by a hyphen and exactly the first 7 characters of the head commit
identifier, and `new_tag` is the prefix concatenated with `new_version`. -/
theorem minor_bump_version_computation
    (w : World) (inp : Inputs) (sha : String) (preRelease : Bool) (logs : String)
    (hp : inp.tagPrefix = "v")
    (hb : resolvedBump w.classifierResult inp.defaultBump = "minor")
    (hsha : 7 ≤ sha.length) :
    Event.output "new_version"
        (if preRelease then "1.3.0-" ++ firstSeven sha else "1.3.0")
      ∈ runBumpPhase w inp sha preRelease "v1.2.3" logs ∧
    Event.output "new_tag"
        ("v" ++ if preRelease then "1.3.0-" ++ firstSeven sha else "1.3.0")
      ∈ runBumpPhase w inp sha preRelease "v1.2.3" logs ∧
    (firstSeven sha).length = 7 := by
  have hver : ("1.3.0" ++ if preRelease then "-" ++ firstSeven sha else "")
      = (if preRelease then "1.3.0-" ++ firstSeven sha else "1.3.0") := by
    cases preRelease with
    | false => rfl
    | true =>
      show "1.3.0" ++ ("-" ++ firstSeven sha) = "1.3.0-" ++ firstSeven sha
      rw [← String.append_assoc]
      congr 1
  refine ⟨?_, ?_, firstSeven_length sha hsha⟩ <;>
    simp [runBumpPhase, hb, hp, jsOr, replaceFirst_v123, semverInc_123_minor, hver]

/-- Concrete world for the C2 witness. -/
def wMinor : World :=
  { env := fun _ => none, shallowOut := "", tagListOut := "", revListOut := "",
    describeOut := "", logOut := "", logAllOut := "", tagExistsOut := "",
    classifierResult := some "minor", notesOut := "", createTagSha := "" }

/-- Concrete inputs for the C2 witness (tag prefix `v`). -/
def inpMinor : Inputs := ⟨"", "", "v", "", "", ""⟩

/-- Witness for C2 on a release branch with a 10-character head identifier. -/
theorem minor_bump_version_computation_witness :
    Event.output "new_version" "1.3.0"
      ∈ runBumpPhase wMinor inpMinor "abcdef0123" false "v1.2.3" "" ∧
    Event.output "new_tag" "v1.3.0"
      ∈ runBumpPhase wMinor inpMinor "abcdef0123" false "v1.2.3" "" ∧
    (firstSeven "abcdef0123").length = 7 := by
  have h := minor_bump_version_computation wMinor inpMinor "abcdef0123" false ""
    rfl (by decide) (by decide)
  exact ⟨h.1, h.2.1, h.2.2⟩

/-- C3: the resolved bump is the classifier's result when it yields one, the
configured default otherwise; with both absent, the run fails with a message
containing "Nothing to bump" and produces no further event — no version
increment, changelog generation, or tag work. -/
theorem bump_resolution_and_nothing_to_bump :
    (∀ b d : String, b ≠ "" → resolvedBump (some b) d = b) ∧
    (∀ d : String, resolvedBump none d = d) ∧
    (∀ (w : World) (inp : Inputs) (sha : String) (preRelease : Bool) (tag logs : String),
      w.classifierResult = none → inp.defaultBump = "" →
      runBumpPhase w inp sha preRelease tag logs =
        [Event.debug ("Commits: " ++ String.intercalate ","
            ((parseCommits logs).map fun _ => "[object Object]")),
         Event.analyze (jsOr inp.messageParserPreset "conventionalcommits") (parseCommits logs),
         Event.debug "Bump type from commits: null",
         Event.info "Effective bump type: ",
         Event.failed "Nothing to bump - not building release"] ∧
      containsStr "Nothing to bump - not building release" "Nothing to bump" = true) := by
  refine ⟨?_, ?_, ?_⟩
  · intro b d hb
    simp [resolvedBump, jsOr, hb]
  · intro d
    simp [resolvedBump, jsOr]
  · intro w inp sha preRelease tag logs hc hd
    refine ⟨?_, by decide⟩
    simp [runBumpPhase, resolvedBump, renderClassifier, jsOr, hc, hd]

/-- Concrete world for the C3 witness (classifier yields no result). -/
def wNoBump : World :=
  { env := fun _ => none, shallowOut := "", tagListOut := "", revListOut := "",
    describeOut := "", logOut := "", logAllOut := "", tagExistsOut := "",
    classifierResult := none, notesOut := "", createTagSha := "" }

/-- Concrete inputs for the C3 witness (no default bump configured). -/
def inpNoBump : Inputs := ⟨"", "", "", "", "", ""⟩

/-- Witness for C3: concrete resolutions, and a concrete run that stops at
the "Nothing to bump" failure. -/
theorem bump_resolution_and_nothing_to_bump_witness :
    resolvedBump (some "minor") "patch" = "minor" ∧
    resolvedBump none "patch" = "patch" ∧
    runBumpPhase wNoBump inpNoBump "s" false "0.0.0" "hello" =
      [Event.debug "Commits: [object Object]",
       Event.analyze "conventionalcommits" ["hello"],
       Event.debug "Bump type from commits: null",
       Event.info "Effective bump type: ",
       Event.failed "Nothing to bump - not building release"] := by
  have h := bump_resolution_and_nothing_to_bump
  exact ⟨h.1 "minor" "patch" (by decide), h.2.1 "patch",
    (h.2.2 wNoBump inpNoBump "s" false "0.0.0" "hello" rfl rfl).1⟩

/-! ## Stage-composition lemmas for `run` -/

/-- When all six configuration reads succeed, `run` proceeds with them. -/
theorem run_eq_inputs (w : World) (d mp tp rb cat dr : String)
    (h1 : getInput w.env "default_bump" = Except.ok d)
    (h2 : getInput w.env "message_parser_preset" = Except.ok mp)
    (h3 : getInput w.env "tag_prefix" = Except.ok tp)
    (h4 : getInput w.env "release_branches" = Except.ok rb)
    (h5 : getInput w.env "create_annotated_tag" = Except.ok cat)
    (h6 : getInput w.env "dry_run" = Except.ok dr) :
    run w = runEnvChecks w ⟨d, mp, tp, rb, cat, dr⟩ := by
  unfold run
  rw [h1, h2, h3, h4, h5, h6]

/-- When both required environment variables are present and nonempty, the
environment checks pass through to the main body. -/
theorem runEnvChecks_eq (w : World) (inp : Inputs) (ref sha : String)
    (e1 : w.env "GITHUB_REF" = some ref) (e2 : (ref == "") = false)
    (e3 : w.env "GITHUB_SHA" = some sha) (e4 : (sha == "") = false) :
    runEnvChecks w inp = runMain w inp ref sha := by
  unfold runEnvChecks
  rw [e1, e3]
  simp [e2, e4]

/-- With existing tags whose newest commit equals the current head, the tag
phase stops after emitting the previous tag. -/
theorem runTagPhase_shortCircuit (w : World) (inp : Inputs) (sha : String)
    (preRelease : Bool)
    (htag : (jsTrim w.tagListOut == "") = false)
    (hsc : jsTrim w.revListOut = sha) :
    runTagPhase w inp sha preRelease =
      [Event.exec "pwd",
       Event.exec ("git rev-list --tags=" ++ inp.tagPrefix ++ "* --topo-order --max-count=1"),
       Event.exec ("git describe --tags " ++ jsTrim w.revListOut),
       Event.exec ("git log " ++ jsTrim w.describeOut ++ "..HEAD --pretty=format:'%s%n%b"
         ++ SEPARATOR ++ "' --abbrev-commit"),
       Event.debug "No new commits since previous tag. Skipping...",
       Event.output "previous_tag" (jsTrim w.describeOut)] := by
  simp [runTagPhase, htag, hsc]

/-- Events that a successful, benign early stop may contain: no failure, no
classifier or changelog invocation, no remote call, and no version outputs. -/
def noTagWork (e : Event) : Bool :=
  !e.isFailed && !e.isAnalyze && !e.isNotes && !e.isRemote
    && !(e.outputKeyIs "new_version") && !(e.outputKeyIs "new_tag")

/-- The git setup phase only executes commands. -/
theorem gitSetupEvents_noTagWork (w : World) :
    (gitSetupEvents w).all noTagWork = true := by
  unfold gitSetupEvents
  by_cases h : jsMatch (jsTrim w.shallowOut) "true" = true
  · rw [if_pos h]; decide
  · rw [if_neg h]; decide

/-- C4: when a previous tag exists and its commit identifier equals the
current head, the run emits the discovered tag as `previous_tag` and
terminates successfully, with no classifier invocation, version computation,
changelog generation, failure, or remote tag work in its trace. -/
theorem no_new_commits_short_circuit
    (w : World) (d mp tp rb cat dr ref sha : String)
    (h1 : getInput w.env "default_bump" = Except.ok d)
    (h2 : getInput w.env "message_parser_preset" = Except.ok mp)
    (h3 : getInput w.env "tag_prefix" = Except.ok tp)
    (h4 : getInput w.env "release_branches" = Except.ok rb)
    (h5 : getInput w.env "create_annotated_tag" = Except.ok cat)
    (h6 : getInput w.env "dry_run" = Except.ok dr)
    (e1 : w.env "GITHUB_REF" = some ref) (e2 : (ref == "") = false)
    (e3 : w.env "GITHUB_SHA" = some sha) (e4 : (sha == "") = false)
    (htag : (jsTrim w.tagListOut == "") = false)
    (hsc : jsTrim w.revListOut = sha) :
    Event.output "previous_tag" (jsTrim w.describeOut) ∈ run w ∧
    (run w).all noTagWork = true := by
  rw [run_eq_inputs w d mp tp rb cat dr h1 h2 h3 h4 h5 h6,
      runEnvChecks_eq w _ ref sha e1 e2 e3 e4]
  unfold runMain
  rw [runTagPhase_shortCircuit w _ sha _ htag hsc]
  constructor
  · simp
  · rw [List.all_append, gitSetupEvents_noTagWork w]
    simp [noTagWork, Event.isFailed, Event.isAnalyze, Event.isNotes, Event.isRemote,
      Event.outputKeyIs]

/-- Concrete world for the C4 witness: previous tag `v1.0.0` points at the
current head `headsha`. -/
def wSameHead : World :=
  { env := fun k =>
      if k == "GITHUB_REF" then some "refs/heads/main"
      else if k == "GITHUB_SHA" then some "headsha"
      else none,
    shallowOut := "false", tagListOut := "v1.0.0", revListOut := "headsha",
    describeOut := "v1.0.0", logOut := "", logAllOut := "", tagExistsOut := "",
    classifierResult := none, notesOut := "", createTagSha := "" }

/-- Witness for C4: the concrete run emits `previous_tag` `v1.0.0` and its
trace contains no bump, version, changelog, failure, or remote work. -/
theorem no_new_commits_short_circuit_witness :
    Event.output "previous_tag" "v1.0.0" ∈ run wSameHead ∧
    (run wSameHead).all noTagWork = true := by
  have h := no_new_commits_short_circuit wSameHead "" "" "" "" "" ""
    "refs/heads/main" "headsha" rfl rfl rfl rfl rfl rfl rfl (by decide) rfl
    (by decide) (by decide) (by decide)
  exact ⟨h.1, h.2⟩

/-- `noRemote` distributes over trace concatenation. -/
theorem noRemote_append (l1 l2 : List Event) :
    noRemote (l1 ++ l2) = (noRemote l1 && noRemote l2) := by
  simp [noRemote]

/-- The tag-creation tail performs no remote call in dry-run mode. -/
theorem noRemote_runTagCreate (w : World) (inp : Inputs) (sha newTag : String)
    (h : inp.dryRun = "true") :
    noRemote (runTagCreate w inp sha newTag) = true := by
  unfold runTagCreate
  rw [h]
  split
  · simp [noRemote, Event.isRemote]
  · simp [noRemote, Event.isRemote]

/-- The bump phase performs no remote call in dry-run mode. -/
theorem noRemote_runBumpPhase (w : World) (inp : Inputs) (sha : String)
    (preRelease : Bool) (tag logs : String) (h : inp.dryRun = "true") :
    noRemote (runBumpPhase w inp sha preRelease tag logs) = true := by
  unfold runBumpPhase
  rw [noRemote_append]
  simp only [Bool.and_eq_true]
  refine ⟨by simp [noRemote, Event.isRemote], ?_⟩
  split
  · simp [noRemote, Event.isRemote]
  · rw [noRemote_append]
    simp only [Bool.and_eq_true]
    refine ⟨by simp [noRemote, Event.isRemote], ?_⟩
    split
    · simp [noRemote, Event.isRemote]
    · rw [noRemote_append]
      simp only [Bool.and_eq_true]
      refine ⟨by simp [noRemote, Event.isRemote], ?_⟩
      split
      · simp [noRemote, Event.isRemote]
      · exact noRemote_runTagCreate w inp sha _ h

/-- The tag phase performs no remote call in dry-run mode. -/
theorem noRemote_runTagPhase (w : World) (inp : Inputs) (sha : String)
    (preRelease : Bool) (h : inp.dryRun = "true") :
    noRemote (runTagPhase w inp sha preRelease) = true := by
  unfold runTagPhase
  split
  · rw [noRemote_append]
    simp only [Bool.and_eq_true]
    exact ⟨by simp [noRemote, Event.isRemote], noRemote_runBumpPhase w inp sha _ _ _ h⟩
  · rw [noRemote_append]
    simp only [Bool.and_eq_true]
    refine ⟨by simp [noRemote, Event.isRemote], ?_⟩
    split
    · simp [noRemote, Event.isRemote]
    · exact noRemote_runBumpPhase w inp sha _ _ _ h

/-- The main body performs no remote call in dry-run mode. -/
theorem noRemote_runMain (w : World) (inp : Inputs) (ref sha : String)
    (h : inp.dryRun = "true") :
    noRemote (runMain w inp ref sha) = true := by
  unfold runMain
  rw [noRemote_append]
  simp only [Bool.and_eq_true]
  refine ⟨?_, noRemote_runTagPhase w inp sha _ h⟩
  unfold gitSetupEvents
  split
  · simp [noRemote, Event.isRemote]
  · simp [noRemote, Event.isRemote]

/-- The environment checks perform no remote call in dry-run mode. -/
theorem noRemote_runEnvChecks (w : World) (inp : Inputs) (h : inp.dryRun = "true") :
    noRemote (runEnvChecks w inp) = true := by
  unfold runEnvChecks
  split
  · simp [noRemote, Event.isRemote]
  · split
    · simp [noRemote, Event.isRemote]
    · split
      · simp [noRemote, Event.isRemote]
      · split
        · simp [noRemote, Event.isRemote]
        · exact noRemote_runMain w inp _ _ h

/-- Whenever the environment sets `dry_run` to `"true"`, the whole run
performs no remote call, regardless of every other value. -/
theorem noRemote_run (w : World) (h : w.env "dry_run" = some "true") :
    noRemote (run w) = true := by
  have hdr : getInput w.env "dry_run" = Except.ok "true" := by simp [getInput, h]
  unfold run
  split
  · simp [noRemote, Event.isRemote]
  · split
    · simp [noRemote, Event.isRemote]
    · split
      · simp [noRemote, Event.isRemote]
      · split
        · simp [noRemote, Event.isRemote]
        · split
          · simp [noRemote, Event.isRemote]
          · rw [hdr]
            exact noRemote_runEnvChecks w _ rfl

/-- Happy path to the tag-creation tail on a release branch: with all
configuration reads succeeding, both environment variables present, existing
tags whose newest commit differs from the head, a nonempty resolved bump and
a successful version increment, the run is the git setup, the discovery and
version events, then the tag-creation tail. -/
theorem run_happy_release
    (w : World) (d mp tp rb cat dr ref sha incV : String)
    (h1 : getInput w.env "default_bump" = Except.ok d)
    (h2 : getInput w.env "message_parser_preset" = Except.ok mp)
    (h3 : getInput w.env "tag_prefix" = Except.ok tp)
    (h4 : getInput w.env "release_branches" = Except.ok rb)
    (h5 : getInput w.env "create_annotated_tag" = Except.ok cat)
    (h6 : getInput w.env "dry_run" = Except.ok dr)
    (e1 : w.env "GITHUB_REF" = some ref) (e2 : (ref == "") = false)
    (e3 : w.env "GITHUB_SHA" = some sha) (e4 : (sha == "") = false)
    (htag : (jsTrim w.tagListOut == "") = false)
    (hnew : (jsTrim w.revListOut == sha) = false)
    (hpre : preReleaseOf rb ref = false)
    (hbump : (resolvedBump w.classifierResult d == "") = false)
    (hinc : semverInc (replaceFirst (jsTrim w.describeOut) tp)
        (jsOr (resolvedBump w.classifierResult d) d) = some incV) :
    run w = gitSetupEvents w ++
      [Event.exec "pwd",
       Event.exec ("git rev-list --tags=" ++ tp ++ "* --topo-order --max-count=1"),
       Event.exec ("git describe --tags " ++ jsTrim w.revListOut),
       Event.exec ("git log " ++ jsTrim w.describeOut ++ "..HEAD --pretty=format:'%s%n%b"
         ++ SEPARATOR ++ "' --abbrev-commit"),
       Event.debug ("Commits: " ++ String.intercalate ","
         ((parseCommits (jsTrim w.logOut)).map fun _ => "[object Object]")),
       Event.analyze (jsOr mp "conventionalcommits") (parseCommits (jsTrim w.logOut)),
       Event.debug ("Bump type from commits: " ++ renderClassifier w.classifierResult),
       Event.info ("Effective bump type: " ++ resolvedBump w.classifierResult d),
       Event.debug ("SemVer.inc(" ++ replaceFirst (jsTrim w.describeOut) tp ++ ", "
         ++ jsOr (resolvedBump w.classifierResult d) d ++ "): " ++ incV),
       Event.output "new_version" incV,
       Event.output "new_tag" (tp ++ incV),
       Event.debug ("New tag: " ++ (tp ++ incV)),
       Event.notes,
       Event.output "changelog" w.notesOut] ++
      runTagCreate w ⟨d, mp, tp, rb, cat, dr⟩ sha (tp ++ incV) := by
  rw [run_eq_inputs w d mp tp rb cat dr h1 h2 h3 h4 h5 h6,
      runEnvChecks_eq w _ ref sha e1 e2 e3 e4]
  unfold runMain runTagPhase runBumpPhase
  simp [htag, hnew, hpre, hbump, hinc]

/-- The git setup phase reports no failure. -/
theorem gitSetupEvents_not_failed (w : World) :
    (gitSetupEvents w).all (fun e => !e.isFailed) = true := by
  unfold gitSetupEvents
  by_cases h : jsMatch (jsTrim w.shallowOut) "true" = true
  · rw [if_pos h]; decide
  · rw [if_neg h]; decide

/-- C5: in dry-run mode (`dry_run` stored as `"true"`), the remote
tag-publishing gateway is never invoked, regardless of every other value;
and a run that reaches the tag-creation decision records the `dry_run`
output and stops without any failure. -/
theorem dry_run_never_publishes :
    (∀ w : World, w.env "dry_run" = some "true" → noRemote (run w) = true) ∧
    (∀ (w : World) (d mp tp rb cat ref sha incV : String),
      getInput w.env "default_bump" = Except.ok d →
      getInput w.env "message_parser_preset" = Except.ok mp →
      getInput w.env "tag_prefix" = Except.ok tp →
      getInput w.env "release_branches" = Except.ok rb →
      getInput w.env "create_annotated_tag" = Except.ok cat →
      w.env "dry_run" = some "true" →
      w.env "GITHUB_REF" = some ref → (ref == "") = false →
      w.env "GITHUB_SHA" = some sha → (sha == "") = false →
      (jsTrim w.tagListOut == "") = false →
      (jsTrim w.revListOut == sha) = false →
      preReleaseOf rb ref = false →
      (resolvedBump w.classifierResult d == "") = false →
      semverInc (replaceFirst (jsTrim w.describeOut) tp)
          (jsOr (resolvedBump w.classifierResult d) d) = some incV →
      (jsTrim w.tagExistsOut == "") = true →
      Event.output "dry_run" "true" ∈ run w ∧
      (run w).all (fun e => !e.isFailed) = true) := by
  constructor
  · exact fun w h => noRemote_run w h
  · intro w d mp tp rb cat ref sha incV h1 h2 h3 h4 h5 hdr e1 e2 e3 e4 htag hnew hpre
      hbump hinc hex
    have h6 : getInput w.env "dry_run" = Except.ok "true" := by simp [getInput, hdr]
    rw [run_happy_release w d mp tp rb cat "true" ref sha incV h1 h2 h3 h4 h5 h6 e1 e2
      e3 e4 htag hnew hpre hbump hinc]
    constructor
    · simp [runTagCreate, hex]
    · rw [List.all_append, List.all_append, gitSetupEvents_not_failed w]
      simp [runTagCreate, hex, Event.isFailed]

/-- Concrete dry-run world for the C5 witness. -/
def wDry : World :=
  { env := fun k =>
      if k == "dry_run" then some "true"
      else if k == "GITHUB_REF" then some "refs/heads/main"
      else if k == "GITHUB_SHA" then some "headsha"
      else none,
    shallowOut := "false", tagListOut := "v1.0.0", revListOut := "oldsha",
    describeOut := "v1.0.0", logOut := "fix: x", logAllOut := "", tagExistsOut := "",
    classifierResult := some "patch", notesOut := "notes", createTagSha := "" }

/-- Witness for C5: the concrete dry-run run emits the `dry_run` output,
reports no failure, and performs no remote call. -/
theorem dry_run_never_publishes_witness :
    Event.output "dry_run" "true" ∈ run wDry ∧
    (run wDry).all (fun e => !e.isFailed) = true ∧
    noRemote (run wDry) = true := by
  have h := dry_run_never_publishes
  have hb := h.2 wDry "" "" "" "" "" "refs/heads/main" "headsha" "1.0.1"
    rfl rfl rfl rfl rfl rfl rfl (by decide) rfl (by decide) (by decide) (by decide)
    (by decide) (by decide) (by decide) (by decide)
  exact ⟨hb.1, hb.2, h.1 wDry rfl⟩

/-- The git setup phase makes no remote call. -/
theorem gitSetupEvents_filter_remote (w : World) :
    (gitSetupEvents w).filter Event.isRemote = [] := by
  unfold gitSetupEvents
  by_cases h : jsMatch (jsTrim w.shallowOut) "true" = true
  · rw [if_pos h]; decide
  · rw [if_neg h]; decide

/-- C6: a run that reaches tag creation makes exactly two remote calls in
annotated mode — the tag object (message = tag name, target = head commit,
type `commit`) and then the reference at the identifier the tag-object
creation returned — and exactly one in non-annotated mode, the reference at
the head commit identifier. -/
theorem tag_creation_remote_calls
    (w : World) (d mp tp rb cat dr ref sha incV tok : String)
    (h1 : getInput w.env "default_bump" = Except.ok d)
    (h2 : getInput w.env "message_parser_preset" = Except.ok mp)
    (h3 : getInput w.env "tag_prefix" = Except.ok tp)
    (h4 : getInput w.env "release_branches" = Except.ok rb)
    (h5 : getInput w.env "create_annotated_tag" = Except.ok cat)
    (h6 : getInput w.env "dry_run" = Except.ok dr)
    (e1 : w.env "GITHUB_REF" = some ref) (e2 : (ref == "") = false)
    (e3 : w.env "GITHUB_SHA" = some sha) (e4 : (sha == "") = false)
    (htag : (jsTrim w.tagListOut == "") = false)
    (hnew : (jsTrim w.revListOut == sha) = false)
    (hpre : preReleaseOf rb ref = false)
    (hbump : (resolvedBump w.classifierResult d == "") = false)
    (hinc : semverInc (replaceFirst (jsTrim w.describeOut) tp)
        (jsOr (resolvedBump w.classifierResult d) d) = some incV)
    (hex : (jsTrim w.tagExistsOut == "") = true)
    (hdr : (dr == "true") = false)
    (htok : getInput w.env "github_token" = Except.ok tok) :
    (run w).filter Event.isRemote =
      (if cat == "true" then
        [Event.createTag (tp ++ incV) (tp ++ incV) sha "commit",
         Event.createRef ("refs/tags/" ++ (tp ++ incV)) w.createTagSha]
      else
        [Event.createRef ("refs/tags/" ++ (tp ++ incV)) sha]) := by
  rw [run_happy_release w d mp tp rb cat dr ref sha incV h1 h2 h3 h4 h5 h6 e1 e2 e3 e4
    htag hnew hpre hbump hinc]
  rw [List.filter_append, List.filter_append, gitSetupEvents_filter_remote w]
  simp [runTagCreate, hex, hdr, htok, Event.isRemote]
  split <;> simp [Event.isRemote]

/-- Concrete annotated-mode world used by the C6 witness and the C7
counterexample. -/
def wAnn : World :=
  { env := fun k =>
      if k == "create_annotated_tag" then some "true"
      else if k == "github_token" then some "tok"
      else if k == "GITHUB_REF" then some "refs/heads/main"
      else if k == "GITHUB_SHA" then some "headsha"
      else none,
    shallowOut := "false", tagListOut := "v1.0.0", revListOut := "oldsha",
    describeOut := "v1.0.0", logOut := "fix: x", logAllOut := "", tagExistsOut := "",
    classifierResult := some "patch", notesOut := "notes", createTagSha := "tagobjsha" }

/-- Witness for C6: the concrete annotated run makes exactly the two remote
calls, in order, the reference targeting the returned tag-object identifier. -/
theorem tag_creation_remote_calls_witness :
    (run wAnn).filter Event.isRemote =
      [Event.createTag "1.0.1" "1.0.1" "headsha" "commit",
       Event.createRef "refs/tags/1.0.1" "tagobjsha"] := by
  have h := tag_creation_remote_calls wAnn "" "" "" "" "true" "" "refs/heads/main"
    "headsha" "1.0.1" "tok" rfl rfl rfl rfl rfl rfl rfl (by decide) rfl (by decide)
    (by decide) (by decide) (by decide) (by decide) (by decide) (by decide)
    (by decide) rfl
  simpa using h

/-- C7 (amended): after a successful tag creation the run re-fetches tags
only in lightweight (non-annotated) mode, where the re-fetch is the final
event; in annotated mode the run returns immediately after creating the
reference, with no re-fetch. -/
theorem refetch_only_in_lightweight_mode
    (w : World) (d mp tp rb cat dr ref sha incV tok : String)
    (h1 : getInput w.env "default_bump" = Except.ok d)
    (h2 : getInput w.env "message_parser_preset" = Except.ok mp)
    (h3 : getInput w.env "tag_prefix" = Except.ok tp)
    (h4 : getInput w.env "release_branches" = Except.ok rb)
    (h5 : getInput w.env "create_annotated_tag" = Except.ok cat)
    (h6 : getInput w.env "dry_run" = Except.ok dr)
    (e1 : w.env "GITHUB_REF" = some ref) (e2 : (ref == "") = false)
    (e3 : w.env "GITHUB_SHA" = some sha) (e4 : (sha == "") = false)
    (htag : (jsTrim w.tagListOut == "") = false)
    (hnew : (jsTrim w.revListOut == sha) = false)
    (hpre : preReleaseOf rb ref = false)
    (hbump : (resolvedBump w.classifierResult d == "") = false)
    (hinc : semverInc (replaceFirst (jsTrim w.describeOut) tp)
        (jsOr (resolvedBump w.classifierResult d) d) = some incV)
    (hex : (jsTrim w.tagExistsOut == "") = true)
    (hdr : (dr == "true") = false)
    (htok : getInput w.env "github_token" = Except.ok tok) :
    ((cat == "true") = true →
      (run w).getLast? = some (Event.createRef ("refs/tags/" ++ (tp ++ incV)) w.createTagSha)) ∧
    ((cat == "true") = false →
      (run w).getLast? = some (Event.exec "git fetch --tags")) := by
  rw [run_happy_release w d mp tp rb cat dr ref sha incV h1 h2 h3 h4 h5 h6 e1 e2 e3 e4
    htag hnew hpre hbump hinc]
  constructor <;> intro hcat <;>
    simp [List.getLast?_append, runTagCreate, hex, hdr, htok, hcat]

/-- Witness for the amended C7: a concrete annotated run ends at the
reference creation. -/
theorem refetch_only_in_lightweight_mode_witness :
    (run wAnn).getLast? = some (Event.createRef "refs/tags/1.0.1" "tagobjsha") := by
  have h := refetch_only_in_lightweight_mode wAnn "" "" "" "" "true" ""
    "refs/heads/main" "headsha" "1.0.1" "tok" rfl rfl rfl rfl rfl rfl rfl (by decide)
    rfl (by decide) (by decide) (by decide) (by decide) (by decide) (by decide)
    (by decide) (by decide) rfl
  simpa using h.1 (by decide)

/-- C7 counterexample: in this annotated-mode run a tag object and its
reference are created, yet the trace's final event is the reference
creation itself — from the first remote call on, no git command (in
particular no tag re-fetch) is executed. -/
theorem annotated_path_skips_refetch_counterexample :
    (run wAnn).getLast? = some (Event.createRef "refs/tags/1.0.1" "tagobjsha") ∧
    Event.createTag "1.0.1" "1.0.1" "headsha" "commit" ∈ run wAnn ∧
    ((run wAnn).dropWhile (fun e => !e.isRemote)).filter Event.isExec = [] := by decide

/-! ## Round trip of commit-log joining and parsing (C8) -/

/-- Joining an ordered list of commit records with a separator, as the
round-trip claim words it. -/
def joinChars (sep : List Char) : List (List Char) → List Char
  | [] => []
  | [m] => m
  | m :: ms => m ++ sep ++ joinChars sep ms

/-- Joining commit messages with the chosen separator into raw log text
(stated from the claim, the program side being `parseCommits`). -/
def joinSep (msgs : List String) : String :=
  (joinChars SEPARATOR.toList (msgs.map String.toList)).asString

/-- A message is clean for the separator when no occurrence of the separator
starts strictly inside the message, even one spilling over into a following
separator (a message ending in `=` can merge with the separator). -/
def sepClean (m : String) : Bool :=
  (List.range m.toList.length).all fun i =>
    !isPref SEPARATOR.toList ((m.toList ++ SEPARATOR.toList).drop i)

/-- Every list is a prefix of itself extended. -/
theorem isPref_append_self (p t : List Char) : isPref p (p ++ t) = true := by
  induction p with
  | nil => rfl
  | cons p0 ps ih => simp [isPref, ih]

/-- A prefix of `a` is a prefix of `a ++ b`. -/
theorem isPref_extend (p : List Char) : ∀ a b : List Char,
    isPref p a = true → isPref p (a ++ b) = true := by
  induction p with
  | nil => intro a b _; rfl
  | cons p0 ps ih =>
    intro a b h
    cases a with
    | nil => simp [isPref] at h
    | cons c a2 =>
      simp only [isPref, Bool.and_eq_true] at h
      simp only [List.cons_append, isPref, Bool.and_eq_true]
      exact ⟨h.1, ih a2 b h.2⟩

/-- A prefix test does not look past the first `p.length` characters. -/
theorem isPref_take (p : List Char) : ∀ a b : List Char, p.length ≤ a.length →
    isPref p (a ++ b) = isPref p a := by
  induction p with
  | nil => intro a b _; rfl
  | cons p0 ps ih =>
    intro a b h
    cases a with
    | nil => simp at h
    | cons c a2 =>
      simp only [List.cons_append, isPref]
      congr 1
      exact ih a2 b (by simpa using h)

/-- With no separator occurrence inside, the break search finds nothing. -/
theorem breakAtSep_none (s0 : Char) (srest : List Char) : ∀ m : List Char,
    (∀ i < m.length, isPref (s0 :: srest) (m.drop i) = false) →
    breakAtSep s0 srest m = none := by
  intro m
  induction m with
  | nil => intro _; rfl
  | cons c rest ih =>
    intro h
    have h0 : isPref (s0 :: srest) (c :: rest) = false := h 0 (by simp)
    unfold breakAtSep
    rw [h0]
    simp only [Bool.false_eq_true, if_false]
    rw [ih fun i hi => h (i + 1) (by simpa using hi)]

/-- With no separator occurrence starting inside `m`, the break search on
`m ++ sep ++ t` splits exactly at the boundary. -/
theorem breakAtSep_boundary (s0 : Char) (srest : List Char) : ∀ m t : List Char,
    (∀ i < m.length, isPref (s0 :: srest) ((m ++ s0 :: srest).drop i) = false) →
    breakAtSep s0 srest (m ++ (s0 :: srest) ++ t) = some (m, t) := by
  intro m
  induction m with
  | nil =>
    intro t _
    show breakAtSep s0 srest (s0 :: (srest ++ t)) = some ([], t)
    unfold breakAtSep
    have : isPref (s0 :: srest) (s0 :: (srest ++ t)) = true := isPref_append_self _ t
    rw [this]
    simp [List.drop_left]
  | cons c m2 ih =>
    intro t h
    have h0 : isPref (s0 :: srest) ((c :: m2 ++ s0 :: srest) ++ t) = false := by
      rw [isPref_take (s0 :: srest) (c :: m2 ++ s0 :: srest) t (by simp; omega)]
      simpa using h 0 (by simp)
    unfold breakAtSep
    simp only [List.cons_append, List.append_assoc] at h0 ⊢
    rw [h0]
    simp only [Bool.false_eq_true, if_false]
    have ih2 := ih t fun i hi => by simpa using h (i + 1) (by simpa using hi)
    simp only [List.append_assoc, List.cons_append] at ih2
    rw [ih2]

/-- Without a separator occurrence the fuelled split returns the input. -/
theorem splitFuel_of_none (s0 : Char) (srest m : List Char) (fuel : Nat)
    (h : breakAtSep s0 srest m = none) :
    splitFuel s0 srest fuel m = [m] := by
  cases fuel with
  | zero => rfl
  | succ f => unfold splitFuel; rw [h]

/-- No-occurrence hypothesis for a chunk alone, derived from the
boundary-aware cleanness hypothesis. -/
theorem drop_no_sep (s0 : Char) (srest m : List Char)
    (h : ∀ i < m.length, isPref (s0 :: srest) ((m ++ s0 :: srest).drop i) = false) :
    ∀ i < m.length, isPref (s0 :: srest) (m.drop i) = false := by
  intro i hi
  by_contra hc
  have ht : isPref (s0 :: srest) (m.drop i) = true := by
    cases he : isPref (s0 :: srest) (m.drop i) with
    | false => exact absurd he hc
    | true => rfl
  have := isPref_extend (s0 :: srest) (m.drop i) (s0 :: srest) ht
  rw [← List.drop_append_of_le_length (Nat.le_of_lt hi)] at this
  rw [h i hi] at this
  exact Bool.false_ne_true this

/-- Splitting the separator-joined chunks recovers them, given enough fuel
and cleanness of every chunk. -/
theorem splitFuel_join (s0 : Char) (srest : List Char) :
    ∀ (msgs : List (List Char)) (fuel : Nat), msgs ≠ [] →
    (∀ m ∈ msgs, ∀ i < m.length,
      isPref (s0 :: srest) ((m ++ s0 :: srest).drop i) = false) →
    (joinChars (s0 :: srest) msgs).length ≤ fuel →
    splitFuel s0 srest fuel (joinChars (s0 :: srest) msgs) = msgs := by
  intro msgs
  induction msgs with
  | nil => intro fuel hne _ _; exact absurd rfl hne
  | cons m ms ih =>
    intro fuel _ hclean hfuel
    cases ms with
    | nil =>
      show splitFuel s0 srest fuel m = [m]
      exact splitFuel_of_none s0 srest m fuel
        (breakAtSep_none s0 srest m (drop_no_sep s0 srest m (hclean m (by simp))))
    | cons m2 rest =>
      have hjoin : joinChars (s0 :: srest) (m :: m2 :: rest)
          = m ++ (s0 :: srest) ++ joinChars (s0 :: srest) (m2 :: rest) := rfl
      rw [hjoin] at hfuel ⊢
      have hlen : (m ++ (s0 :: srest) ++ joinChars (s0 :: srest) (m2 :: rest)).length
          = m.length + (srest.length + 1) + (joinChars (s0 :: srest) (m2 :: rest)).length := by
        simp; omega
      cases fuel with
      | zero => rw [hlen] at hfuel; omega
      | succ f =>
        unfold splitFuel
        rw [breakAtSep_boundary s0 srest m (joinChars (s0 :: srest) (m2 :: rest))
          (hclean m (by simp))]
        show m :: splitFuel s0 srest f (joinChars (s0 :: srest) (m2 :: rest)) = m :: m2 :: rest
        rw [ih f (by simp) (fun x hx => hclean x (by simp [hx])) (by rw [hlen] at hfuel; omega)]

/-- Converting a string to characters and back is the identity. -/
theorem asString_toList (s : String) : s.toList.asString = s := rfl

/-- Converting characters to a string and back is the identity. -/
theorem toList_asString (l : List Char) : (List.asString l).toList = l := rfl

/-- Mapping a function that fixes every element of a list is the identity. -/
theorem map_self {α : Type} (l : List α) (f : α → α) (h : ∀ a ∈ l, f a = a) :
    l.map f = l := by
  induction l with
  | nil => rfl
  | cons a t ih =>
    simp only [List.map_cons]
    rw [h a (by simp), ih fun b hb => h b (by simp [hb])]

/-- Unfolds `sepClean` into the pointwise no-occurrence statement. -/
theorem sepClean_spec (s0 : Char) (srest : List Char)
    (hsep : SEPARATOR.toList = s0 :: srest) (m : String) (h : sepClean m = true) :
    ∀ i < m.toList.length, isPref (s0 :: srest) ((m.toList ++ s0 :: srest).drop i) = false := by
  intro i hi
  unfold sepClean at h
  rw [hsep, List.all_eq_true] at h
  simpa using h i (List.mem_range.mpr hi)

/-- `jsSplit` on a separator with known nonempty character form. -/
theorem jsSplit_eq (s sep : String) (s0 : Char) (srest : List Char)
    (hsep : sep.toList = s0 :: srest) :
    jsSplit s sep = (splitFuel s0 srest s.toList.length s.toList).map List.asString := by
  unfold jsSplit
  rw [hsep]

/-- C8 (amended): joining an ordered list of commit messages with the
separator and parsing the result recovers exactly the original list,
provided each message is nonempty, carries no leading/trailing quote or
whitespace characters (so the record cleanup fixes it), and contains no
occurrence of the separator — not even one merging with the following
separator. -/
theorem log_roundtrip_clean_messages (msgs : List String)
    (h1 : ∀ m ∈ msgs, (m == "") = false)
    (h2 : ∀ m ∈ msgs, stripQuoteWs (jsTrim m) = m)
    (h3 : ∀ m ∈ msgs, sepClean m = true) :
    parseCommits (joinSep msgs) = msgs := by
  cases msgs with
  | nil => decide
  | cons m0 ms0 =>
    rcases hsep : SEPARATOR.toList with _ | ⟨s0, srest⟩
    · exact absurd hsep (by decide)
    have hclean : ∀ mc ∈ (m0 :: ms0).map String.toList, ∀ i < mc.length,
        isPref (s0 :: srest) ((mc ++ s0 :: srest).drop i) = false := by
      intro mc hmc
      rw [List.mem_map] at hmc
      obtain ⟨mS, hmS, rfl⟩ := hmc
      exact sepClean_spec s0 srest hsep mS (h3 mS hmS)
    unfold parseCommits joinSep
    rw [jsSplit_eq _ SEPARATOR s0 srest hsep, toList_asString, hsep]
    rw [splitFuel_join s0 srest ((m0 :: ms0).map String.toList) _ (by simp) hclean
      (Nat.le_refl _)]
    rw [map_self (((m0 :: ms0).map String.toList).map List.asString)
      (fun x => stripQuoteWs (jsTrim x)) ?hfix]
    case hfix =>
      intro a ha
      simp only [List.map_map, List.mem_map, Function.comp] at ha
      obtain ⟨mS, hmS, rfl⟩ := ha
      rw [asString_toList]
      exact h2 mS hmS
    have hback : ((m0 :: ms0).map String.toList).map List.asString = m0 :: ms0 := by
      rw [List.map_map]
      exact map_self _ _ fun a _ => asString_toList a
    rw [hback]
    exact List.filter_eq_self.mpr fun a ha => by simp [h1 a ha]

/-- C8 counterexample: the message list `[" a"]` is not recovered — joining
and re-parsing trims the leading space, so the round trip yields `["a"]`. -/
theorem log_roundtrip_counterexample :
    parseCommits (joinSep [" a"]) = ["a"] ∧ parseCommits (joinSep [" a"]) ≠ [" a"] := by
  decide

/-- Witness for the amended C8 on two ordinary conventional-commit messages. -/
theorem log_roundtrip_clean_messages_witness :
    parseCommits (joinSep ["feat: add x", "fix: y"]) = ["feat: add x", "fix: y"] :=
  log_roundtrip_clean_messages ["feat: add x", "fix: y"]
    (by decide) (by decide) (by decide)
